import Mathlib

/-!
Shallow embedding of the Nelson event backend (location / user / venue REST
controllers and their auth middleware), together with proofs about the
recursive descendant resolver, the access-control chain, and the CRUD
validation rules.

Conventions of the embedding:
* MongoDB ObjectIds are modelled as `Nat`.
* A collection is a `List` of records; `findById` is `List.find?` on the id
  field, `create` appends a record whose id is supplied as an explicit
  fresh-id argument (Mongo assigns `_id` at insertion; the controllers never
  accept a client-chosen id).
* Request-body fields are `Option`s; JavaScript falsiness of a missing or
  empty field is modelled explicitly at each check.
* `String.trim` normalisation of mongoose is omitted: inputs are modelled
  post-trim.  The mongoose `lowercase`/`uppercase` setters are kept.
* Each `res.status(s).json(...)` site of a controller becomes one constructor
  of that controller's result type; a `status` projection recovers the HTTP
  code.
-/

namespace Nelson

/-- Location record (src/backend/src/location/locationModel.js): name, unique
uppercased code, optional parent pointer. -/
structure Location where
  id : Nat
  name : String
  code : String
  parent : Option Nat
deriving DecidableEq, Repr

/-- User record (userModel.js): name, phone, unique lowercased email, role
(one of Admin / Organizer / Attend, enforced at validation), location
reference. -/
structure User where
  id : Nat
  name : String
  phone : String
  email : String
  role : String
  location : Nat
deriving DecidableEq, Repr

/-- Venue record (venueModel.js): placeName, capacity (min 1, enforced at
validation), location reference, createdBy reference. -/
structure Venue where
  id : Nat
  placeName : String
  capacity : Int
  location : Nat
  createdBy : Nat
deriving DecidableEq, Repr

/-- The document store: the three Mongo collections. -/
structure DB where
  locations : List Location
  users : List User
  venues : List Venue
deriving DecidableEq, Repr

/-- `Location.findById` of mongoose. -/
def findLocation (locs : List Location) (i : Nat) : Option Location :=
  locs.find? (fun l => l.id == i)

/-- `User.findById` of mongoose. -/
def findUser (users : List User) (i : Nat) : Option User :=
  users.find? (fun u => u.id == i)

/-- `Venue.findById` of mongoose. -/
def findVenue (venues : List Venue) (i : Nat) : Option Venue :=
  venues.find? (fun v => v.id == i)

/-- The list of ids present in a location store. -/
def idsOf (locs : List Location) : List Nat :=
  locs.map (fun l => l.id)

/-- A store is well keyed when its ids are pairwise distinct (Mongo `_id` is
a primary key). -/
@[reducible] def idsNodup (locs : List Location) : Prop :=
  (idsOf locs).Nodup

/-- `Location.find({ parent: locationId })`: the direct children of a node. -/
def childrenOf (locs : List Location) (locationId : Nat) : List Location :=
  locs.filter (fun l => l.parent == some locationId)

/-- The recursive descendant resolver `getAllChildLocationIds`, duplicated
verbatim in venueController.js (lines 163-180) and userController.js.  The
JavaScript recursion is unbounded (it diverges on a cyclic parent graph); the
embedding adds an explicit fuel argument, with the callers instantiating fuel
at `locs.length`, which the theorems show suffices on every acyclic store. -/
def getAllChildLocationIds (locs : List Location) : Nat → Nat → List Nat
  | 0, locationId => [locationId]
  | fuel + 1, locationId =>
    if (childrenOf locs locationId).isEmpty then
      [locationId]
    else
      locationId ::
        (childrenOf locs locationId).flatMap (fun c => getAllChildLocationIds locs fuel c.id)

/-- The resolver as invoked by the controllers (fuel = store size). -/
def resolveSubtree (locs : List Location) (rootId : Nat) : List Nat :=
  getAllChildLocationIds locs locs.length rootId

/-- One parent-pointer step: some record in the store has id `c` and parent
`p`. -/
def parentStep (locs : List Location) (c p : Nat) : Prop :=
  ∃ l, l ∈ locs ∧ l.id = c ∧ l.parent = some p

/-- `chainList locs ch y r`: `ch` lists the nodes of a downward chain from
`r` to `y`, child after child; the empty chain relates `r` to itself. -/
def chainList (locs : List Location) : List Nat → Nat → Nat → Prop
  | [], y, r => y = r
  | c :: ch, y, r => parentStep locs c r ∧ chainList locs ch y c

/-- `y`'s parent chain reaches `r` (or `y = r` via the empty chain). -/
def Descendant (locs : List Location) (y r : Nat) : Prop :=
  ∃ ch, chainList locs ch y r

/-- The parent-pointer graph is acyclic: no node lies on a nonempty chain
from itself to itself. -/
def Acyclic (locs : List Location) : Prop :=
  ∀ x ch, chainList locs ch x x → ch = []

/-- ASCII lowercasing (the mongoose `lowercase` setter), written as a
character map so that it evaluates inside the kernel. -/
def lowerString (s : String) : String :=
  String.mk (s.data.map Char.toLower)

/-- ASCII uppercasing (the mongoose `uppercase` setter), written as a
character map so that it evaluates inside the kernel. -/
def upperString (s : String) : String :=
  String.mk (s.data.map Char.toUpper)

/-- Truthiness of an optional string body field (JS `!field`): absent or
empty means missing. -/
def strPresent : Option String → Bool
  | none => false
  | some s => !s.isEmpty

/-- Truthiness of an optional numeric body field (JS `!field`): absent or
zero means missing. -/
def intPresent : Option Int → Bool
  | none => false
  | some c => c != 0

/-- Truthiness of an optional reference body field. -/
def refPresent : Option Nat → Bool
  | none => false
  | some _ => true

/-- A provided reference that does not resolve in the location store (the
`if (ref) and findById(ref) missing` pattern of the controllers). -/
def refMissing (locs : List Location) (r : Option Nat) : Bool :=
  match r with
  | none => false
  | some p => (findLocation locs p).isNone

/-- JS regex word character: letter, digit or underscore. -/
def isWordChar (c : Char) : Bool :=
  c.isAlphanum || c == '_'

/-- Separator characters allowed between word runs in the email pattern. -/
def isSepChar (c : Char) : Bool :=
  c == '.' || c == '-'

/-- Continuation of a word run: matches the regex fragment
`([.-]?\w+)*` given that a word character was just read (separators are
single, never leading, trailing or adjacent). -/
def localTail : List Char → Bool
  | [] => true
  | c :: rest =>
    if isWordChar c then localTail rest
    else if isSepChar c then
      match rest with
      | [] => false
      | d :: rest₂ => isWordChar d && localTail rest₂
    else false

/-- Matches the regex fragment `\w+([.-]?\w+)*` against a whole string. -/
def localLike (cs : List Char) : Bool :=
  match cs with
  | [] => false
  | c :: rest => isWordChar c && localTail rest

/-- Matches the regex fragment `(\.\w{2,3})+` against a whole string: one or
more groups of a dot followed by 2 or 3 word characters. -/
def tldGroups : List Char → Bool
  | '.' :: c₁ :: c₂ :: rest =>
    isWordChar c₁ && isWordChar c₂ &&
      (match rest with
       | [] => true
       | c₃ :: rest₂ =>
         tldGroups (c₃ :: rest₂) || (isWordChar c₃ && (rest₂.isEmpty || tldGroups rest₂)))
  | _ => false

/-- Matches the regex fragment `\w+([.-]?\w+)*(\.\w{2,3})+` (domain part of
the email pattern), trying every split point between the word-run prefix and
the dot groups. -/
def domainMatch (cs : List Char) : Bool :=
  (List.range (cs.length + 1)).any fun i => localLike (cs.take i) && tldGroups (cs.drop i)

/-- Scans up to the first `@` and matches the userModel.js email pattern
`^\w+([\.-]?\w+)*@\w+([\.-]?\w+)*(\.\w{2,3})+$` (neither side of the pattern
can contain `@`, so splitting at the first `@` is exhaustive). -/
def emailMatchAux : List Char → List Char → Bool
  | _, [] => false
  | acc, '@' :: rest => localLike acc.reverse && domainMatch rest
  | acc, c :: rest => emailMatchAux (c :: acc) rest

/-- The userModel.js email `match` validator. -/
def emailMatches (s : String) : Bool :=
  emailMatchAux [] s.toList

/-- The userModel.js role enum. -/
def validRole (r : String) : Bool :=
  r == "Admin" || r == "Organizer" || r == "Attend"

/-- Request body of the user create/update endpoints. -/
structure UserBody where
  name : Option String := none
  phone : Option String := none
  email : Option String := none
  role : Option String := none
  location : Option Nat := none
deriving DecidableEq, Repr

/-- Responses of `createUser` (userController.js), one constructor per
`res.status(s).json` site. -/
inductive CreateUserRes
  | missingFields (message : String)
  | validationError (message : String)
  | duplicateEmail (message : String)
  | created (user : User)
deriving DecidableEq, Repr

/-- HTTP status of each `createUser` response. -/
def CreateUserRes.status : CreateUserRes → Nat
  | .missingFields _ => 400
  | .validationError _ => 400
  | .duplicateEmail _ => 400
  | .created _ => 201

/-- `createUser` (userController.js): required-field truthiness check, then
mongoose schema validation (role enum and email pattern, the email
lowercased by its setter), then the unique email index; the location
reference is never checked against the location store (the function does not
even read it).  The relative order of the enum and pattern validators only
affects the error message; both are reported as 400. -/
def createUser (users : List User) (newId : Nat) (body : UserBody) :
    CreateUserRes × List User :=
  match body.name, body.phone, body.email, body.role, body.location with
  | some name, some phone, some email, some role, some location =>
    if name.isEmpty || phone.isEmpty || email.isEmpty || role.isEmpty then
      (.missingFields "All fields are required: name, phone, email, role, and location", users)
    else if !validRole role then
      (.validationError "Role must be either Admin, Organizer, or Attend", users)
    else if !emailMatches (lowerString email) then
      (.validationError "Please provide a valid email address", users)
    else if users.any (fun u => u.email == lowerString email) then
      (.duplicateEmail "Email already exists", users)
    else
      (.created ⟨newId, name, phone, lowerString email, role, location⟩,
        users ++ [⟨newId, name, phone, lowerString email, role, location⟩])
  | _, _, _, _, _ =>
    (.missingFields "All fields are required: name, phone, email, role, and location", users)

/-- Request body of the location create/update endpoints. -/
structure LocationBody where
  name : Option String := none
  code : Option String := none
  parent : Option Nat := none
deriving DecidableEq, Repr

/-- Responses of `createLocation` (locationController.js lines 4-47). -/
inductive CreateLocationRes
  | missingFields (message : String)
  | parentNotFound (message : String)
  | duplicateCode (message : String)
  | created (location : Location)
deriving DecidableEq, Repr

/-- HTTP status of each `createLocation` response. -/
def CreateLocationRes.status : CreateLocationRes → Nat
  | .missingFields _ => 400
  | .parentNotFound _ => 404
  | .duplicateCode _ => 400
  | .created _ => 201

/-- `createLocation` (locationController.js lines 4-47): requires name and
code, verifies a provided parent exists, creates with the uppercased code
unless it collides with an existing one.  There is no self-parent check
here: the new record's id (`newId`, fresh by Mongo id assignment) does not
exist yet, so a parent equal to it is caught by the parent-existence check
instead. -/
def createLocation (locs : List Location) (newId : Nat) (body : LocationBody) :
    CreateLocationRes × List Location :=
  match body.name, body.code with
  | some name, some code =>
    if name.isEmpty || code.isEmpty then
      (.missingFields "Name and code are required", locs)
    else if refMissing locs body.parent then
      (.parentNotFound "Parent location not found", locs)
    else if locs.any (fun l => l.code == upperString code) then
      (.duplicateCode "Location code already exists", locs)
    else
      (.created ⟨newId, name, upperString code, body.parent⟩,
        locs ++ [⟨newId, name, upperString code, body.parent⟩])
  | _, _ => (.missingFields "Name and code are required", locs)

/-- Responses of `updateLocation` (locationController.js lines 117-170). -/
inductive UpdateLocationRes
  | selfParent (message : String)
  | parentNotFound (message : String)
  | notFound (message : String)
  | duplicateCode (message : String)
  | ok (location : Location)
deriving DecidableEq, Repr

/-- HTTP status of each `updateLocation` response. -/
def UpdateLocationRes.status : UpdateLocationRes → Nat
  | .selfParent _ => 400
  | .parentNotFound _ => 404
  | .notFound _ => 404
  | .duplicateCode _ => 400
  | .ok _ => 200

/-- In-place update of the (first) record with the given id. -/
def updateLocationById (locs : List Location) (i : Nat) (f : Location → Location) :
    List Location :=
  match locs with
  | [] => []
  | l :: rest => if l.id == i then f l :: rest else l :: updateLocationById rest i f

/-- `updateLocation` (locationController.js lines 117-170): rejects a parent
equal to the target's own id before anything else, verifies a provided
parent exists, then `findByIdAndUpdate` with undefined fields stripped
(absent body fields leave the record unchanged) and the duplicate-code index
error mapped to 400. -/
def updateLocation (locs : List Location) (paramsId : Nat) (body : LocationBody) :
    UpdateLocationRes × List Location :=
  if body.parent == some paramsId then
    (.selfParent "Location cannot be its own parent", locs)
  else if refMissing locs body.parent then
    (.parentNotFound "Parent location not found", locs)
  else
    match findLocation locs paramsId with
    | none => (.notFound "Location not found", locs)
    | some old =>
      if locs.any (fun l => l.id != paramsId &&
          l.code == ((body.code.map (fun c => upperString c)).getD old.code)) then
        (.duplicateCode "Location code already exists", locs)
      else
        (.ok { old with
                name := body.name.getD old.name,
                code := (body.code.map (fun c => upperString c)).getD old.code,
                parent := match body.parent with | some p => some p | none => old.parent },
          updateLocationById locs paramsId (fun l =>
            { l with
              name := body.name.getD l.name,
              code := (body.code.map (fun c => upperString c)).getD l.code,
              parent := match body.parent with | some p => some p | none => l.parent }))

/-- Responses of `deleteLocation` (locationController.js lines 173-205). -/
inductive DeleteLocationRes
  | conflict (message : String)
  | notFound (message : String)
  | deleted (location : Location)
deriving DecidableEq, Repr

/-- HTTP status of each `deleteLocation` response (the delete-with-children
conflict is reported as 400). -/
def DeleteLocationRes.status : DeleteLocationRes → Nat
  | .conflict _ => 400
  | .notFound _ => 404
  | .deleted _ => 200

/-- `deleteLocation` (locationController.js lines 173-205): counts direct
children first and refuses to delete when any exist, otherwise
`findByIdAndDelete`. -/
def deleteLocation (locs : List Location) (paramsId : Nat) :
    DeleteLocationRes × List Location :=
  if 0 < (childrenOf locs paramsId).length then
    (.conflict "Cannot delete location with child locations", locs)
  else
    match findLocation locs paramsId with
    | none => (.notFound "Location not found", locs)
    | some l => (.deleted l, locs.eraseP (fun x => x.id == paramsId))

/-- Request body of the venue create/update endpoints. -/
structure VenueBody where
  placeName : Option String := none
  capacity : Option Int := none
  location : Option Nat := none
deriving DecidableEq, Repr

/-- Responses of `createVenue` (venueController.js lines 6-59). -/
inductive CreateVenueRes
  | missingFields (message : String)
  | locationNotFound (message : String)
  | validationError (message : String)
  | created (venue : Venue)
deriving DecidableEq, Repr

/-- HTTP status of each `createVenue` response. -/
def CreateVenueRes.status : CreateVenueRes → Nat
  | .missingFields _ => 400
  | .locationNotFound _ => 404
  | .validationError _ => 400
  | .created _ => 201

/-- `createVenue` (venueController.js lines 6-59): required-field truthiness
(a capacity of 0 is falsy in JS and is reported as a missing field),
location existence, then the schema's min-1 capacity validator; `createdBy`
is taken from the authenticated caller. -/
def createVenue (locs : List Location) (venues : List Venue) (caller : User)
    (body : VenueBody) (newId : Nat) : CreateVenueRes × List Venue :=
  match body.placeName, body.capacity, body.location with
  | some placeName, some capacity, some location =>
    if placeName.isEmpty || capacity == 0 then
      (.missingFields "All fields are required: placeName, capacity, and location", venues)
    else if (findLocation locs location).isNone then
      (.locationNotFound "Location not found", venues)
    else if capacity < 1 then
      (.validationError "Capacity must be at least 1", venues)
    else
      (.created ⟨newId, placeName, capacity, location, caller.id⟩,
        venues ++ [⟨newId, placeName, capacity, location, caller.id⟩])
  | _, _, _ =>
    (.missingFields "All fields are required: placeName, capacity, and location", venues)

/-- Responses of `updateVenue` (venueController.js lines 228-277). -/
inductive UpdateVenueRes
  | locationNotFound (message : String)
  | notFound (message : String)
  | validationError (message : String)
  | ok (venue : Venue)
deriving DecidableEq, Repr

/-- HTTP status of each `updateVenue` response. -/
def UpdateVenueRes.status : UpdateVenueRes → Nat
  | .locationNotFound _ => 404
  | .notFound _ => 404
  | .validationError _ => 400
  | .ok _ => 200

/-- In-place update of the (first) venue with the given id. -/
def updateVenueById (venues : List Venue) (i : Nat) (f : Venue → Venue) :
    List Venue :=
  match venues with
  | [] => []
  | v :: rest => if v.id == i then f v :: rest else v :: updateVenueById rest i f

/-- `updateVenue` (venueController.js lines 228-277): verifies a provided
location exists, then `findByIdAndUpdate` over `placeName`, `capacity` and
`location` only — `createdBy` is never part of the update document.  Absent
body fields are stripped (record unchanged); update validators (min-1
capacity, required placeName) are modelled on the found-record path. -/
def updateVenue (locs : List Location) (venues : List Venue) (paramsId : Nat)
    (body : VenueBody) : UpdateVenueRes × List Venue :=
  if refMissing locs body.location then
    (.locationNotFound "Location not found", venues)
  else
    match findVenue venues paramsId with
    | none => (.notFound "Venue not found", venues)
    | some old =>
      if (body.capacity.any fun c => c < 1) then
        (.validationError "Capacity must be at least 1", venues)
      else if body.placeName == some "" then
        (.validationError "Venue place name is required", venues)
      else
        (.ok { old with
                placeName := body.placeName.getD old.placeName,
                capacity := body.capacity.getD old.capacity,
                location := body.location.getD old.location },
          updateVenueById venues paramsId (fun v =>
            { v with
              placeName := body.placeName.getD v.placeName,
              capacity := body.capacity.getD v.capacity,
              location := body.location.getD v.location }))

/-- Responses of `deleteVenue` (venueController.js lines 280-302). -/
inductive DeleteVenueRes
  | notFound (message : String)
  | deleted (venue : Venue)
deriving DecidableEq, Repr

/-- HTTP status of each `deleteVenue` response. -/
def DeleteVenueRes.status : DeleteVenueRes → Nat
  | .notFound _ => 404
  | .deleted _ => 200

/-- `deleteVenue` (venueController.js lines 280-302). -/
def deleteVenue (venues : List Venue) (paramsId : Nat) :
    DeleteVenueRes × List Venue :=
  match findVenue venues paramsId with
  | none => (.notFound "Venue not found", venues)
  | some v => (.deleted v, venues.eraseP (fun x => x.id == paramsId))

/-- Responses of `getVenuesByLocation` (venueController.js lines 183-225). -/
inductive VenuesByLocationRes
  | notFound (message : String)
  | ok (count : Nat) (locationsSearched : Nat) (data : List Venue)
deriving DecidableEq, Repr

/-- HTTP status of each `getVenuesByLocation` response. -/
def VenuesByLocationRes.status : VenuesByLocationRes → Nat
  | .notFound _ => 404
  | .ok _ _ _ => 200

/-- `getVenuesByLocation` (venueController.js lines 183-225): verifies the
location exists, resolves the subtree, and filters venues by membership of
their location in the resolved id list; `locationsSearched` is that list's
length. -/
def getVenuesByLocation (locs : List Location) (venues : List Venue)
    (locationId : Nat) : VenuesByLocationRes :=
  match findLocation locs locationId with
  | none => .notFound "Location not found"
  | some _ =>
    .ok (venues.filter (fun v => (resolveSubtree locs locationId).contains v.location)).length
      (resolveSubtree locs locationId).length
      (venues.filter (fun v => (resolveSubtree locs locationId).contains v.location))

/-- Response of `getUsersByLocation` (userController.js): this endpoint has
no location-existence check and no failure path other than storage errors,
so its only response shape is the 200 payload. -/
structure UsersByLocationRes where
  status : Nat
  count : Nat
  locationsSearched : Nat
  data : List User
deriving DecidableEq, Repr

/-- `getUsersByLocation` (userController.js): resolves the subtree of the
given id without checking that the id exists, and filters users by
membership. -/
def getUsersByLocation (locs : List Location) (users : List User)
    (locationId : Nat) : UsersByLocationRes :=
  ⟨200,
    (users.filter (fun u => (resolveSubtree locs locationId).contains u.location)).length,
    (resolveSubtree locs locationId).length,
    users.filter (fun u => (resolveSubtree locs locationId).contains u.location)⟩

/-- Result of the identity-resolution middleware `authenticateUser`
(auth.js lines 8-38): either a 401 response or the resolved caller together
with its populated location. -/
inductive AuthResult
  | unauthenticated (message : String)
  | ok (user : User) (populatedLocation : Option Location)
deriving DecidableEq, Repr

/-- `authenticateUser` (auth.js lines 8-38): reads the x-user-id header,
401 when absent, 401 when no User has that id, otherwise attaches the
resolved user with its location populated. -/
def authenticateUser (db : DB) (headerUserId : Option Nat) : AuthResult :=
  match headerUserId with
  | none => .unauthenticated "Authentication required. Please provide x-user-id header"
  | some userId =>
    match findUser db.users userId with
    | none => .unauthenticated "Invalid user ID"
    | some user => .ok user (findLocation db.locations user.location)

/-- Result of a pass-through middleware gate: terminate the request with a
status and message, or hand control to the next step. -/
inductive GateResult
  | stop (status : Nat) (message : String)
  | proceed
deriving DecidableEq, Repr

/-- `requireRole` (auth.js lines 44-62). -/
def requireRole (roles : List String) (user : Option User) : GateResult :=
  match user with
  | none => .stop 401 "Authentication required"
  | some u =>
    if roles.contains u.role then .proceed
    else .stop 403 ("Access denied. Required role(s): " ++ String.intercalate ", " roles)

/-- `checkVenueOwnership` (auth.js lines 68-117): Admin passes
unconditionally; otherwise the target venue is resolved (404 when absent)
and its creator compared with the caller (403 on mismatch). -/
def checkVenueOwnership (db : DB) (user : Option User) (paramsId : Option Nat) :
    GateResult :=
  match user with
  | none => .stop 401 "Authentication required"
  | some u =>
    if u.role == "Admin" then .proceed
    else
      match paramsId with
      | none => .stop 400 "Venue ID is required"
      | some venueId =>
        match findVenue db.venues venueId with
        | none => .stop 404 "Venue not found"
        | some venue =>
          if venue.createdBy == u.id then .proceed
          else .stop 403 "Access denied. You can only modify venues you created"

/-- Outcome of a routed request: terminated by a middleware gate, or
handled by the controller. -/
inductive RouteResult (α : Type)
  | stopped (status : Nat) (message : String)
  | handled (response : α)
deriving DecidableEq, Repr

/-- HTTP status of a route outcome, given the controller's status map. -/
def RouteResult.statusWith {α : Type} (f : α → Nat) : RouteResult α → Nat
  | .stopped s _ => s
  | .handled r => f r

/-- The venue creation route `router.post('/', authenticateUser,
requireRole('Admin', 'Organizer'), createVenue)` (venueRoutes.js line 69). -/
def venueCreateRoute (db : DB) (headerUserId : Option Nat) (body : VenueBody)
    (newId : Nat) : RouteResult CreateVenueRes × DB :=
  match authenticateUser db headerUserId with
  | .unauthenticated m => (.stopped 401 m, db)
  | .ok caller _ =>
    match requireRole ["Admin", "Organizer"] (some caller) with
    | .stop s m => (.stopped s m, db)
    | .proceed =>
      match createVenue db.locations db.venues caller body newId with
      | (res, venues) => (.handled res, { db with venues := venues })

/-- The venue deletion route `router.delete('/:id', authenticateUser,
checkVenueOwnership, deleteVenue)` (venueRoutes.js line 354). -/
def venueDeleteRoute (db : DB) (headerUserId : Option Nat) (paramsId : Nat) :
    RouteResult DeleteVenueRes × DB :=
  match authenticateUser db headerUserId with
  | .unauthenticated m => (.stopped 401 m, db)
  | .ok caller _ =>
    match checkVenueOwnership db (some caller) (some paramsId) with
    | .stop s m => (.stopped s m, db)
    | .proceed =>
      match deleteVenue db.venues paramsId with
      | (res, venues) => (.handled res, { db with venues := venues })

/-- The venue update route `router.put('/:id', authenticateUser,
checkVenueOwnership, updateVenue)` (venueRoutes.js line 311). -/
def venueUpdateRoute (db : DB) (headerUserId : Option Nat) (paramsId : Nat)
    (body : VenueBody) : RouteResult UpdateVenueRes × DB :=
  match authenticateUser db headerUserId with
  | .unauthenticated m => (.stopped 401 m, db)
  | .ok caller _ =>
    match checkVenueOwnership db (some caller) (some paramsId) with
    | .stop s m => (.stopped s m, db)
    | .proceed =>
      match updateVenue db.locations db.venues paramsId body with
      | (res, venues) => (.handled res, { db with venues := venues })

/-- Concrete three-level location store used by the witnesses (the spec's
Rwanda / Kigali / Kicukiro example). -/
def storeRw : List Location :=
  [⟨1, "Rwanda", "RW", none⟩, ⟨2, "Kigali", "KGL", some 1⟩, ⟨3, "Kicukiro", "KCK", some 2⟩]

/-- Concrete venues used by the witnesses: one inside the Rwanda subtree,
one in an unrelated location. -/
def venuesRw : List Venue :=
  [⟨10, "Hall", 100, 3, 8⟩, ⟨11, "Gym", 50, 9, 8⟩]

/-- Concrete users used by the witnesses. -/
def adminUser : User := ⟨7, "Alice", "0788000001", "alice@ex.com", "Admin", 1⟩

/-- Organizer fixture; `venuesRw` venues were created by this user. -/
def organizerUser : User := ⟨8, "Bob", "0788000002", "bob@ex.com", "Organizer", 2⟩

/-- Attendee fixture. -/
def attendUser : User := ⟨9, "Carol", "0788000003", "carol@ex.com", "Attend", 3⟩

/-- Concrete database fixture. -/
def dbRw : DB := ⟨storeRw, [adminUser, organizerUser, attendUser], venuesRw⟩

theorem chainList_append (locs : List Location) (s t : List Nat) (y r : Nat) :
    chainList locs (s ++ t) y r ↔ ∃ m, chainList locs s m r ∧ chainList locs t y m := by
  induction s generalizing r with
  | nil =>
    simp [chainList]
  | cons c s ih =>
    simp only [List.cons_append, chainList]
    constructor
    · rintro ⟨hp, htail⟩
      obtain ⟨m, h1, h2⟩ := (ih c).mp htail
      exact ⟨m, ⟨hp, h1⟩, h2⟩
    · rintro ⟨m, ⟨hp, h1⟩, h2⟩
      exact ⟨hp, (ih c).mpr ⟨m, h1, h2⟩⟩

theorem chainList_mem_ids (locs : List Location) (ch : List Nat) (y r : Nat)
    (h : chainList locs ch y r) : ∀ c ∈ ch, c ∈ idsOf locs := by
  induction ch generalizing r with
  | nil => intro c hc; cases hc
  | cons c ch ih =>
    obtain ⟨⟨l, hl, hid, _⟩, htail⟩ := h
    intro d hd
    rcases List.mem_cons.mp hd with rfl | hd
    · exact hid ▸ List.mem_map.mpr ⟨l, hl, rfl⟩
    · exact ih c htail d hd

theorem chainList_concat (locs : List Location) (ch : List Nat) (y r : Nat)
    (h : chainList locs ch y r) (hne : ch ≠ []) :
    ∃ s m, ch = s ++ [y] ∧ chainList locs s m r ∧ parentStep locs y m := by
  induction ch generalizing r with
  | nil => exact absurd rfl hne
  | cons c ch ih =>
    obtain ⟨hp, htail⟩ := h
    rcases eq_or_ne ch [] with rfl | hch
    · obtain rfl : y = c := htail
      exact ⟨[], r, rfl, rfl, hp⟩
    · obtain ⟨s, m, rfl, hs, hy⟩ := ih c htail hch
      exact ⟨c :: s, m, rfl, ⟨hp, hs⟩, hy⟩

theorem exists_dup_split (ch : List Nat) (h : ¬ ch.Nodup) :
    ∃ a s₁ s₂ s₃, ch = s₁ ++ a :: s₂ ++ a :: s₃ := by
  induction ch with
  | nil => exact absurd List.nodup_nil h
  | cons c ch ih =>
    rw [List.nodup_cons] at h
    push_neg at h
    by_cases hc : c ∈ ch
    · obtain ⟨s₂, s₃, rfl⟩ := List.append_of_mem hc
      exact ⟨c, [], s₂, s₃, rfl⟩
    · obtain ⟨a, s₁, s₂, s₃, rfl⟩ := ih (h hc)
      exact ⟨a, c :: s₁, s₂, s₃, rfl⟩

theorem chainList_nodup (locs : List Location) (ch : List Nat) (y r : Nat)
    (hacyc : Acyclic locs) (h : chainList locs ch y r) : ch.Nodup := by
  by_contra hnd
  obtain ⟨a, s₁, s₂, s₃, rfl⟩ := exists_dup_split ch hnd
  obtain ⟨m₁, h₁, hp₂, _⟩ := (chainList_append locs (s₁ ++ a :: s₂) (a :: s₃) y r).mp h
  obtain ⟨m₂, _, _, h₅⟩ := (chainList_append locs s₁ (a :: s₂) m₁ r).mp h₁
  have hcyc : chainList locs (s₂ ++ [a]) a a :=
    (chainList_append locs s₂ [a] a a).mpr ⟨m₁, h₅, hp₂, rfl⟩
  have := hacyc a (s₂ ++ [a]) hcyc
  simp at this

theorem chainList_length_le (locs : List Location) (ch : List Nat) (y r : Nat)
    (hacyc : Acyclic locs) (h : chainList locs ch y r) : ch.length ≤ locs.length := by
  have hnd : ch.Nodup := chainList_nodup locs ch y r hacyc h
  have hsub : ch.toFinset ⊆ (idsOf locs).toFinset := by
    intro x hx
    exact List.mem_toFinset.mpr
      (chainList_mem_ids locs ch y r h x (List.mem_toFinset.mp hx))
  calc ch.length = ch.toFinset.card := (List.toFinset_card_of_nodup hnd).symm
    _ ≤ (idsOf locs).toFinset.card := Finset.card_le_card hsub
    _ ≤ (idsOf locs).length := (idsOf locs).toFinset_card_le
    _ = locs.length := List.length_map locs _

theorem getAllChildLocationIds_head (locs : List Location) (fuel r : Nat) :
    ∃ t, getAllChildLocationIds locs fuel r = r :: t := by
  cases fuel with
  | zero => exact ⟨[], rfl⟩
  | succ n =>
    by_cases h : (childrenOf locs r).isEmpty
    · exact ⟨[], by simp [getAllChildLocationIds, h]⟩
    · exact ⟨(childrenOf locs r).flatMap (fun c => getAllChildLocationIds locs n c.id),
        by simp [getAllChildLocationIds, h]⟩

theorem self_mem_getAllChildLocationIds (locs : List Location) (fuel r : Nat) :
    r ∈ getAllChildLocationIds locs fuel r := by
  obtain ⟨t, ht⟩ := getAllChildLocationIds_head locs fuel r
  rw [ht]
  exact List.mem_cons_self r t

theorem getAllChildLocationIds_sound (locs : List Location) :
    ∀ fuel r y, y ∈ getAllChildLocationIds locs fuel r → Descendant locs y r := by
  intro fuel
  induction fuel with
  | zero =>
    intro r y hy
    obtain rfl : y = r := by simpa [getAllChildLocationIds] using hy
    exact ⟨[], rfl⟩
  | succ n ih =>
    intro r y hy
    by_cases h : (childrenOf locs r).isEmpty
    · obtain rfl : y = r := by simpa [getAllChildLocationIds, h] using hy
      exact ⟨[], rfl⟩
    · simp only [getAllChildLocationIds, if_neg h, List.mem_cons] at hy
      rcases hy with rfl | hy
      · exact ⟨[], rfl⟩
      · obtain ⟨c, hc, hyc⟩ := List.mem_flatMap.mp hy
        obtain ⟨hcl, hcp⟩ := List.mem_filter.mp hc
        obtain ⟨ch, hch⟩ := ih c.id y hyc
        exact ⟨c.id :: ch, ⟨c, hcl, rfl, by simpa using hcp⟩, hch⟩

theorem getAllChildLocationIds_complete (locs : List Location) :
    ∀ ch fuel y r, chainList locs ch y r → ch.length ≤ fuel →
      y ∈ getAllChildLocationIds locs fuel r := by
  intro ch
  induction ch with
  | nil =>
    intro fuel y r h _
    obtain rfl : y = r := h
    exact self_mem_getAllChildLocationIds locs fuel _
  | cons c ch ih =>
    intro fuel y r h hlen
    cases fuel with
    | zero => simp at hlen
    | succ n =>
      obtain ⟨⟨l, hl, hid, hp⟩, htail⟩ := h
      have hlc : l ∈ childrenOf locs r :=
        List.mem_filter.mpr ⟨hl, by simp [hp]⟩
      have hne : ¬ (childrenOf locs r).isEmpty := by
        simp only [List.isEmpty_iff]
        exact List.ne_nil_of_mem hlc
      simp only [getAllChildLocationIds, if_neg hne, List.mem_cons]
      refine Or.inr (List.mem_flatMap.mpr ⟨l, hlc, ?_⟩)
      rw [hid]
      exact ih n y c htail (by simpa using hlen)

theorem mem_resolveSubtree_iff (locs : List Location) (rootId : Nat)
    (hacyc : Acyclic locs) :
    ∀ y, y ∈ resolveSubtree locs rootId ↔ Descendant locs y rootId := by
  intro y
  constructor
  · exact getAllChildLocationIds_sound locs locs.length rootId y
  · rintro ⟨ch, hch⟩
    exact getAllChildLocationIds_complete locs ch locs.length y rootId hch
      (chainList_length_le locs ch y rootId hacyc hch)

theorem parentStep_unique (locs : List Location) (hnd : idsNodup locs)
    {y m m' : Nat} (h : parentStep locs y m) (h' : parentStep locs y m') : m = m' := by
  obtain ⟨l, hl, hid, hp⟩ := h
  obtain ⟨l', hl', hid', hp'⟩ := h'
  have hnd' : (locs.map (fun l => l.id)).Nodup := hnd
  have : l = l' := List.inj_on_of_nodup_map hnd' hl hl' (hid.trans hid'.symm)
  subst this
  exact Option.some_injective _ (hp.symm.trans hp')

theorem chainList_unique (locs : List Location) (hacyc : Acyclic locs)
    (hnd : idsNodup locs) :
    ∀ n ch ch' y r, ch.length ≤ n → chainList locs ch y r → chainList locs ch' y r →
      ch = ch' := by
  intro n
  induction n with
  | zero =>
    intro ch ch' y r hlen h h'
    obtain rfl : ch = [] := List.eq_nil_of_length_eq_zero (Nat.le_zero.mp hlen)
    obtain rfl : y = r := h
    exact (hacyc _ ch' h').symm
  | succ n ih =>
    intro ch ch' y r hlen h h'
    rcases eq_or_ne ch [] with rfl | hch
    · obtain rfl : y = r := h
      exact (hacyc _ ch' h').symm
    · have hyr : y ≠ r := by
        rintro rfl
        exact hch (hacyc y ch h)
      have hch' : ch' ≠ [] := by
        rintro rfl
        exact hyr h'
      obtain ⟨s, m, rfl, hs, hy⟩ := chainList_concat locs ch y r h hch
      obtain ⟨s', m', rfl, hs', hy'⟩ := chainList_concat locs ch' y r h' hch'
      obtain rfl : m = m' := parentStep_unique locs hnd hy hy'
      have hslen : s.length ≤ n := by
        have := hlen
        simp only [List.length_append, List.length_singleton] at this
        omega
      rw [ih s s' m r hslen hs hs']

theorem getAllChildLocationIds_nodup (locs : List Location)
    (hacyc : Acyclic locs) (hnd : idsNodup locs) :
    ∀ fuel r, (getAllChildLocationIds locs fuel r).Nodup := by
  intro fuel
  induction fuel with
  | zero => intro r; simp [getAllChildLocationIds]
  | succ n ih =>
    intro r
    by_cases h : (childrenOf locs r).isEmpty
    · simp [getAllChildLocationIds, h]
    · simp only [getAllChildLocationIds, if_neg h]
      rw [List.nodup_cons]
      constructor
      · intro hr
        obtain ⟨c, hc, hyc⟩ := List.mem_flatMap.mp hr
        obtain ⟨hcl, hcp⟩ := List.mem_filter.mp hc
        obtain ⟨ch, hch⟩ := getAllChildLocationIds_sound locs n c.id r hyc
        have hcyc : chainList locs (c.id :: ch) r r :=
          ⟨⟨c, hcl, rfl, by simpa using hcp⟩, hch⟩
        have := hacyc r (c.id :: ch) hcyc
        simp at this
      · rw [List.nodup_flatMap]
        refine ⟨fun c _ => ih c.id, ?_⟩
        have hsub : (childrenOf locs r).Sublist locs := List.filter_sublist locs
        have hnd' : (locs.map (fun l => l.id)).Nodup := hnd
        have hmapnd : ((childrenOf locs r).map (fun l => l.id)).Nodup :=
          hnd'.sublist (hsub.map _)
        have hpair : (childrenOf locs r).Pairwise (fun a b => a.id ≠ b.id) :=
          List.pairwise_map.mp hmapnd
        refine List.Pairwise.imp_of_mem ?_ hpair
        intro a b ha hb hne y hya hyb
        obtain ⟨ch₁, h₁⟩ := getAllChildLocationIds_sound locs n a.id y hya
        obtain ⟨ch₂, h₂⟩ := getAllChildLocationIds_sound locs n b.id y hyb
        have hpa : parentStep locs a.id r :=
          ⟨a, (List.mem_filter.mp ha).1, rfl, by simpa using (List.mem_filter.mp ha).2⟩
        have hpb : parentStep locs b.id r :=
          ⟨b, (List.mem_filter.mp hb).1, rfl, by simpa using (List.mem_filter.mp hb).2⟩
        have heq := chainList_unique locs hacyc hnd (a.id :: ch₁).length
          (a.id :: ch₁) (b.id :: ch₂) y r le_rfl ⟨hpa, h₁⟩ ⟨hpb, h₂⟩
        injection heq with h1 _
        exact hne h1

theorem resolveSubtree_nodup (locs : List Location) (rootId : Nat)
    (hacyc : Acyclic locs) (hnd : idsNodup locs) :
    (resolveSubtree locs rootId).Nodup :=
  getAllChildLocationIds_nodup locs hacyc hnd locs.length rootId

/-- Sufficient criterion used to certify acyclicity of concrete stores: a
rank function that strictly increases along every parent-to-child step. -/
theorem acyclic_of_rank (locs : List Location) (rank : Nat → Nat)
    (h : ∀ c p, parentStep locs c p → rank p < rank c) : Acyclic locs := by
  have key : ∀ ch y r, chainList locs ch y r → ch ≠ [] → rank r < rank y := by
    intro ch
    induction ch with
    | nil => intro y r _ hne; exact absurd rfl hne
    | cons c ch ih =>
      intro y r ⟨hp, htail⟩ _
      rcases eq_or_ne ch [] with rfl | hch
      · obtain rfl : y = c := htail
        exact h y r hp
      · exact lt_trans (h c r hp) (ih y c htail hch)
  intro x ch hch
  by_contra hne
  exact lt_irrefl _ (key ch x x hch hne)

theorem findLocation_eq_none (locs : List Location) (i : Nat) (h : i ∉ idsOf locs) :
    findLocation locs i = none := by
  apply List.find?_eq_none.mpr
  intro l hl
  simp only [beq_iff_eq]
  intro hid
  exact h (List.mem_map.mpr ⟨l, hl, hid⟩)

theorem findLocation_isSome (locs : List Location) (i : Nat) (h : i ∈ idsOf locs) :
    (findLocation locs i).isSome := by
  obtain ⟨l, hl, hid⟩ := List.mem_map.mp h
  exact List.find?_isSome.mpr ⟨l, hl, by simp [hid]⟩

theorem findLocation_eq_of_mem (locs : List Location) (l : Location)
    (hnd : idsNodup locs) (hmem : l ∈ locs) : findLocation locs l.id = some l := by
  obtain ⟨l', hl'⟩ :=
    Option.isSome_iff_exists.mp
      (findLocation_isSome locs l.id (List.mem_map.mpr ⟨l, hmem, rfl⟩))
  have h1 : l' ∈ locs := List.mem_of_find?_eq_some hl'
  have h2 : l'.id = l.id := by simpa using List.find?_some hl'
  have hnd' : (locs.map (fun x => x.id)).Nodup := hnd
  rw [hl', List.inj_on_of_nodup_map hnd' h1 hmem h2]

theorem childrenOf_eq_nil (locs : List Location) (lid : Nat)
    (h : ∀ l ∈ locs, l.parent ≠ some lid) : childrenOf locs lid = [] := by
  apply List.filter_eq_nil_iff.mpr
  intro l hl
  simp only [beq_iff_eq]
  exact h l hl

theorem resolveSubtree_of_no_children (locs : List Location) (lid : Nat)
    (h : childrenOf locs lid = []) : resolveSubtree locs lid = [lid] := by
  unfold resolveSubtree
  cases locs.length with
  | zero => rfl
  | succ n => simp [getAllChildLocationIds, h]

theorem resolveSubtree_spec (locs : List Location) (rootId : Nat)
    (hacyc : Acyclic locs) :
    ∀ y, y ∈ resolveSubtree locs rootId ↔
      (y = rootId ∨ ∃ ch, ch ≠ [] ∧ chainList locs ch y rootId) := by
  intro y
  rw [mem_resolveSubtree_iff locs rootId hacyc y]
  constructor
  · rintro ⟨ch, hch⟩
    rcases eq_or_ne ch [] with rfl | hne
    · exact Or.inl hch
    · exact Or.inr ⟨ch, hne, hch⟩
  · rintro (rfl | ⟨ch, _, hch⟩)
    · exact ⟨[], rfl⟩
    · exact ⟨ch, hch⟩

theorem storeRw_acyclic : Acyclic storeRw := by
  refine acyclic_of_rank storeRw (fun x => x) ?_
  rintro c p ⟨l, hl, rfl, hpar⟩
  simp only [storeRw, List.mem_cons, List.not_mem_nil, or_false] at hl
  rcases hl with rfl | rfl | rfl <;> simp_all <;> omega

/-- C1: on every acyclic, well-keyed location store containing `rootId`, the
descendant resolver `getAllChildLocationIds` (duplicated in venueController
and userController, here called as the controllers call it) returns exactly
`rootId` plus every location whose parent chain reaches `rootId`, with no
omissions and no duplicates. -/
theorem resolver_returns_exact_subtree (locs : List Location) (rootId : Nat)
    (hacyc : Acyclic locs) (hnd : idsNodup locs) (_hroot : rootId ∈ idsOf locs) :
    (∀ y, y ∈ resolveSubtree locs rootId ↔
      (y = rootId ∨ ∃ ch, ch ≠ [] ∧ chainList locs ch y rootId)) ∧
    (resolveSubtree locs rootId).Nodup :=
  ⟨resolveSubtree_spec locs rootId hacyc, resolveSubtree_nodup locs rootId hacyc hnd⟩

/-- Witness for C1 on the Rwanda / Kigali / Kicukiro store. -/
theorem resolver_returns_exact_subtree_witness :
    (∀ y, y ∈ resolveSubtree storeRw 1 ↔
      (y = 1 ∨ ∃ ch, ch ≠ [] ∧ chainList storeRw ch y 1)) ∧
    (resolveSubtree storeRw 1).Nodup :=
  resolver_returns_exact_subtree storeRw 1 storeRw_acyclic (by decide) (by decide)

/-- C2: on every acyclic, well-keyed location store containing `lid`, the
venues-by-location query returns exactly the venues whose location lies in
the resolved subtree of `lid`, and reports `locationsSearched` equal to the
cardinality of that resolved set. -/
theorem venuesByLocation_filters_by_subtree (locs : List Location)
    (venues : List Venue) (lid : Nat)
    (hacyc : Acyclic locs) (hnd : idsNodup locs) (hL : lid ∈ idsOf locs) :
    ∃ S : Finset Nat,
      (∀ y, y ∈ S ↔ (y = lid ∨ ∃ ch, ch ≠ [] ∧ chainList locs ch y lid)) ∧
      ∃ data, getVenuesByLocation locs venues lid = .ok data.length S.card data ∧
        ∀ v, v ∈ data ↔ v ∈ venues ∧ v.location ∈ S := by
  obtain ⟨l, hl⟩ := Option.isSome_iff_exists.mp (findLocation_isSome locs lid hL)
  refine ⟨(resolveSubtree locs lid).toFinset, ?_, ?_⟩
  · intro y
    rw [List.mem_toFinset]
    exact resolveSubtree_spec locs lid hacyc y
  · refine ⟨venues.filter (fun v => (resolveSubtree locs lid).contains v.location), ?_, ?_⟩
    · have hcard : (resolveSubtree locs lid).toFinset.card = (resolveSubtree locs lid).length :=
        List.toFinset_card_of_nodup (resolveSubtree_nodup locs lid hacyc hnd)
      simp [getVenuesByLocation, hl, hcard]
    · intro v
      simp [List.mem_filter, List.mem_toFinset]

/-- Witness for C2 on the Rwanda store with one venue inside the subtree and
one outside. -/
theorem venuesByLocation_filters_by_subtree_witness :
    ∃ S : Finset Nat,
      (∀ y, y ∈ S ↔ (y = 1 ∨ ∃ ch, ch ≠ [] ∧ chainList storeRw ch y 1)) ∧
      ∃ data, getVenuesByLocation storeRw venuesRw 1 = .ok data.length S.card data ∧
        ∀ v, v ∈ data ↔ v ∈ venuesRw ∧ v.location ∈ S :=
  venuesByLocation_filters_by_subtree storeRw venuesRw 1 storeRw_acyclic
    (by decide) (by decide)

/-- C3 counterexample: a create request whose parent equals the id the new
location will receive (id 4, fresh for the Rwanda store) fails with 404
(parent not found), not with a 400 validation error as claimed; the store is
unchanged.  `createLocation` has no self-parent check at all. -/
theorem selfParent_create_404_counterexample :
    (createLocation storeRw 4 ⟨some "Kigali2", some "KGL2", some 4⟩).1.status = 404 ∧
    ¬ (createLocation storeRw 4 ⟨some "Kigali2", some "KGL2", some 4⟩).1.status = 400 ∧
    (createLocation storeRw 4 ⟨some "Kigali2", some "KGL2", some 4⟩).2 = storeRw := by
  refine ⟨rfl, by decide, rfl⟩

/-- C3 (amended): updating a location with parent equal to its own id always
fails with the 400 self-parent validation error and leaves the store
unchanged; on create there is no self-parent check — the new location's id
is assigned fresh by the store, so a parent equal to it fails the
parent-existence check with 404 instead (store also unchanged), whenever
name and code are present. -/
theorem selfParent_update_400_create_404 (locs : List Location)
    (paramsId newId : Nat) (body : LocationBody) (name code : String)
    (hfresh : newId ∉ idsOf locs)
    (hname : name.isEmpty = false) (hcode : code.isEmpty = false) :
    (body.parent = some paramsId →
      updateLocation locs paramsId body =
        (.selfParent "Location cannot be its own parent", locs) ∧
      (updateLocation locs paramsId body).1.status = 400) ∧
    (createLocation locs newId ⟨some name, some code, some newId⟩ =
      (.parentNotFound "Parent location not found", locs) ∧
    (createLocation locs newId ⟨some name, some code, some newId⟩).1.status = 404) := by
  constructor
  · intro hp
    have : (body.parent == some paramsId) = true := by simp [hp]
    constructor
    · simp [updateLocation, this]
    · simp [updateLocation, this, UpdateLocationRes.status]
  · have hmiss : refMissing locs (some newId) = true := by
      simp [refMissing, findLocation_eq_none locs newId hfresh]
    constructor
    · simp [createLocation, hname, hcode, hmiss]
    · simp [createLocation, hname, hcode, hmiss, CreateLocationRes.status]

/-- Witness for the amended C3 on the Rwanda store. -/
theorem selfParent_update_400_create_404_witness :
    ((⟨none, none, some 2⟩ : LocationBody).parent = some 2 →
      updateLocation storeRw 2 ⟨none, none, some 2⟩ =
        (.selfParent "Location cannot be its own parent", storeRw) ∧
      (updateLocation storeRw 2 ⟨none, none, some 2⟩).1.status = 400) ∧
    (createLocation storeRw 4 ⟨some "Kigali2", some "KGL2", some 4⟩ =
      (.parentNotFound "Parent location not found", storeRw) ∧
    (createLocation storeRw 4 ⟨some "Kigali2", some "KGL2", some 4⟩).1.status = 404) :=
  selfParent_update_400_create_404 storeRw 2 4 ⟨none, none, some 2⟩ "Kigali2" "KGL2"
    (by decide) (by decide) (by decide)

/-- C4 counterexample: with an empty user collection and no location record
anywhere, a user-creation request whose location reference is the dangling
id 42 succeeds with 201 and a User record is created, not a 404 as claimed
(`createUser` performs no existence check on the location reference; it does
not consult the location collection at all). -/
theorem createUser_dangling_location_counterexample :
    (createUser [] 1 ⟨some "A", some "p", some "a@b.co", some "Attend", some 42⟩).1.status = 201 ∧
    ¬ (createUser [] 1 ⟨some "A", some "p", some "a@b.co", some "Attend", some 42⟩).1.status
      = 404 ∧
    (createUser [] 1 ⟨some "A", some "p", some "a@b.co", some "Attend", some 42⟩).2 =
      [⟨1, "A", "p", "a@b.co", "Attend", 42⟩] := by
  exact ⟨by decide, by decide, by decide⟩

/-- C4 (amended): `createUser` validates presence of the fields, the role
enum, the email pattern and email uniqueness, but never that the location
reference resolves: with those checks satisfied it creates the user with 201
for an arbitrary location id. -/
theorem createUser_skips_location_check (users : List User) (newId loc : Nat)
    (name phone email role : String)
    (hname : name.isEmpty = false) (hphone : phone.isEmpty = false)
    (hemail : email.isEmpty = false) (hrole : validRole role = true)
    (hmatch : emailMatches (lowerString email) = true)
    (hdup : ∀ u ∈ users, u.email ≠ lowerString email) :
    createUser users newId ⟨some name, some phone, some email, some role, some loc⟩ =
      (.created ⟨newId, name, phone, lowerString email, role, loc⟩,
        users ++ [⟨newId, name, phone, lowerString email, role, loc⟩]) ∧
    (createUser users newId
      ⟨some name, some phone, some email, some role, some loc⟩).1.status = 201 := by
  have hrole' : role.isEmpty = false := by
    have : (role = "Admin" ∨ role = "Organizer") ∨ role = "Attend" := by
      simpa [validRole] using hrole
    rcases this with (rfl | rfl) | rfl <;> rfl
  have hany : (users.any fun u => u.email == lowerString email) = false := by
    rw [List.any_eq_false]
    intro u hu
    simp [hdup u hu]
  constructor
  · simp [createUser, hname, hphone, hemail, hrole, hrole', hmatch, hany]
  · simp [createUser, hname, hphone, hemail, hrole, hrole', hmatch, hany,
      CreateUserRes.status]

/-- Witness for the amended C4: a concrete create with a dangling location
id 42 against an empty location universe. -/
theorem createUser_skips_location_check_witness :
    (createUser [] 1 ⟨some "A", some "p", some "a@b.co", some "Attend", some 42⟩ =
      (.created ⟨1, "A", "p", "a@b.co", "Attend", 42⟩,
        [] ++ [⟨1, "A", "p", "a@b.co", "Attend", 42⟩]) ∧
    (createUser [] 1 ⟨some "A", some "p", some "a@b.co", some "Attend", some 42⟩).1.status
      = 201) :=
  createUser_skips_location_check [] 1 42 "A" "p" "a@b.co" "Attend"
    rfl rfl rfl (by decide) (by decide) (by intro u hu; cases hu)

/-- C5: on the venue creation route, an authenticated caller with role
Attend is stopped with 403 before the controller runs (the store is
untouched); an Admin or Organizer caller with a nonempty placeName, a
capacity of at least 1 and an existing location gets 201 with the venue
created. -/
theorem venueCreate_role_gate (db : DB) (uid newId : Nat) (caller : User)
    (body : VenueBody) (hfind : findUser db.users uid = some caller) :
    (caller.role = "Attend" →
      ∃ m, venueCreateRoute db (some uid) body newId = (.stopped 403 m, db)) ∧
    (∀ placeName capacity location,
      (caller.role = "Admin" ∨ caller.role = "Organizer") →
      placeName.isEmpty = false → 1 ≤ capacity →
      (findLocation db.locations location).isSome →
      venueCreateRoute db (some uid) ⟨some placeName, some capacity, some location⟩ newId =
        (.handled (.created ⟨newId, placeName, capacity, location, caller.id⟩),
          { db with venues := db.venues ++ [⟨newId, placeName, capacity, location, caller.id⟩] })) := by
  have hauth : authenticateUser db (some uid) =
      .ok caller (findLocation db.locations caller.location) := by
    simp [authenticateUser, hfind]
  constructor
  · intro hrole
    refine ⟨"Access denied. Required role(s): " ++ String.intercalate ", " ["Admin", "Organizer"], ?_⟩
    have hrr : requireRole ["Admin", "Organizer"] (some caller) =
        .stop 403 ("Access denied. Required role(s): " ++
          String.intercalate ", " ["Admin", "Organizer"]) := by
      simp [requireRole, hrole]
    simp [venueCreateRoute, hauth, hrr]
  · intro placeName capacity location hrole hpn hcap hloc
    have hrr : requireRole ["Admin", "Organizer"] (some caller) = .proceed := by
      rcases hrole with h | h <;> simp [requireRole, h]
    obtain ⟨l, hl⟩ := Option.isSome_iff_exists.mp hloc
    have h0 : (capacity == 0) = false := by
      simp only [beq_eq_false_iff_ne, ne_eq]
      omega
    have h1 : ¬ (capacity < 1) := by omega
    simp [venueCreateRoute, hauth, hrr, createVenue, hpn, h0, hl, h1]

/-- Witness for C5: Carol (Attend) is stopped with 403 and the database is
unchanged; Bob (Organizer) creates a venue with valid fields. -/
theorem venueCreate_role_gate_witness :
    (∃ m, venueCreateRoute dbRw (some 9) ⟨some "Conference Hall A", some 100, some 1⟩ 20 =
      (.stopped 403 m, dbRw)) ∧
    venueCreateRoute dbRw (some 8) ⟨some "Conference Hall A", some 100, some 1⟩ 20 =
      (.handled (.created ⟨20, "Conference Hall A", 100, 1, 8⟩),
        { dbRw with venues := dbRw.venues ++ [⟨20, "Conference Hall A", 100, 1, 8⟩] }) := by
  constructor
  · exact (venueCreate_role_gate dbRw 9 20 attendUser
      ⟨some "Conference Hall A", some 100, some 1⟩ (by decide)).1 rfl
  · exact (venueCreate_role_gate dbRw 8 20 organizerUser
      ⟨some "Conference Hall A", some 100, some 1⟩ (by decide)).2
      "Conference Hall A" 100 1 (Or.inr rfl) rfl (by decide) (by decide)

/-- C6 counterexample: the success clause fails after the ownership gate on
both mutation routes — an Admin's delete request for a venue id absent from
the store passes the gate but fails in the controller with 404, and the
owning Organizer's update of their own venue with a dangling body location
id also passes the gate and fails with 404 (a capacity below 1 would fail
with 400 the same way); neither request succeeds. -/
theorem ownership_success_clause_counterexample :
    venueDeleteRoute dbRw (some 7) 99 =
      (.handled (.notFound "Venue not found"), dbRw) ∧
    RouteResult.statusWith DeleteVenueRes.status (venueDeleteRoute dbRw (some 7) 99).1
      = 404 ∧
    (∀ v, (venueDeleteRoute dbRw (some 7) 99).1 ≠ .handled (.deleted v)) ∧
    venueUpdateRoute dbRw (some 8) 10 ⟨none, none, some 42⟩ =
      (.handled (.locationNotFound "Location not found"), dbRw) ∧
    RouteResult.statusWith UpdateVenueRes.status
      (venueUpdateRoute dbRw (some 8) 10 ⟨none, none, some 42⟩).1 = 404 ∧
    (∀ v, (venueUpdateRoute dbRw (some 8) 10 ⟨none, none, some 42⟩).1 ≠ .handled (.ok v)) := by
  refine ⟨by decide, by decide, ?_, by decide, by decide, ?_⟩
  · intro v h
    rw [(by decide : (venueDeleteRoute dbRw (some 7) 99).1 =
      RouteResult.handled (DeleteVenueRes.notFound "Venue not found"))] at h
    simp at h
  · intro v h
    rw [(by decide : (venueUpdateRoute dbRw (some 8) 10 ⟨none, none, some 42⟩).1 =
      RouteResult.handled (UpdateVenueRes.locationNotFound "Location not found"))] at h
    injection h with h₂
    exact UpdateVenueRes.noConfusion h₂

/-- C6 (amended): for an authenticated caller, on both the venue update and
the venue delete route: the ownership gate passes unconditionally for
Admins; a non-Admin's request on a missing venue stops with 404 and an
unchanged store; a non-Admin, non-owner request on an existing venue stops
with 403 and an unchanged store; the gate never blocks the owning caller or
an Admin — their delete succeeds whenever the target venue exists, and
their update succeeds whenever the target venue exists and the body is
valid (existing location, nonempty placeName, capacity at least 1).  The
remaining failures are post-gate controller failures: an Admin's request on
a missing venue and an owner's update with a dangling location fail 404, an
owner's update with an invalid capacity or placeName fails 400. -/
theorem venueOwnership_update_delete_spec (db : DB) (uid vid : Nat) (caller : User)
    (body : VenueBody) (hfind : findUser db.users uid = some caller) :
    (caller.role = "Admin" →
      checkVenueOwnership db (some caller) (some vid) = .proceed) ∧
    (caller.role ≠ "Admin" → findVenue db.venues vid = none →
      venueDeleteRoute db (some uid) vid = (.stopped 404 "Venue not found", db) ∧
      venueUpdateRoute db (some uid) vid body = (.stopped 404 "Venue not found", db)) ∧
    (∀ v, caller.role ≠ "Admin" → findVenue db.venues vid = some v →
      v.createdBy ≠ caller.id →
      ∃ m, venueDeleteRoute db (some uid) vid = (.stopped 403 m, db) ∧
        venueUpdateRoute db (some uid) vid body = (.stopped 403 m, db)) ∧
    (∀ v, findVenue db.venues vid = some v →
      (caller.role = "Admin" ∨ v.createdBy = caller.id) →
      venueDeleteRoute db (some uid) vid =
        (.handled (.deleted v),
          { db with venues := db.venues.eraseP (fun x => x.id == vid) })) ∧
    (∀ v placeName capacity location, findVenue db.venues vid = some v →
      (caller.role = "Admin" ∨ v.createdBy = caller.id) →
      placeName.isEmpty = false → 1 ≤ capacity →
      (findLocation db.locations location).isSome →
      venueUpdateRoute db (some uid) vid ⟨some placeName, some capacity, some location⟩ =
        (.handled (.ok ⟨v.id, placeName, capacity, location, v.createdBy⟩),
          { db with venues := updateVenueById db.venues vid (fun w =>
              { w with placeName := placeName, capacity := capacity,
                       location := location }) })) := by
  have hauth : authenticateUser db (some uid) =
      .ok caller (findLocation db.locations caller.location) := by
    simp [authenticateUser, hfind]
  have hgate : ∀ v, findVenue db.venues vid = some v →
      (caller.role = "Admin" ∨ v.createdBy = caller.id) →
      checkVenueOwnership db (some caller) (some vid) = .proceed := by
    intro v hfv hok
    rcases hok with hrole | hown
    · simp [checkVenueOwnership, hrole]
    · by_cases hrole : caller.role = "Admin"
      · simp [checkVenueOwnership, hrole]
      · have hr : (caller.role == "Admin") = false := by simp [hrole]
        simp [checkVenueOwnership, hr, hfv, hown]
  refine ⟨?_, ?_, ?_, ?_, ?_⟩
  · intro hrole
    simp [checkVenueOwnership, hrole]
  · intro hne hfv
    have hr : (caller.role == "Admin") = false := by simp [hne]
    constructor
    · simp [venueDeleteRoute, hauth, checkVenueOwnership, hr, hfv]
    · simp [venueUpdateRoute, hauth, checkVenueOwnership, hr, hfv]
  · intro v hne hfv hown
    have hr : (caller.role == "Admin") = false := by simp [hne]
    have ho : (v.createdBy == caller.id) = false := by simp [hown]
    exact ⟨"Access denied. You can only modify venues you created",
      by simp [venueDeleteRoute, hauth, checkVenueOwnership, hr, hfv, ho],
      by simp [venueUpdateRoute, hauth, checkVenueOwnership, hr, hfv, ho]⟩
  · intro v hfv hok
    simp [venueDeleteRoute, hauth, hgate v hfv hok, deleteVenue, hfv]
  · intro v placeName capacity location hfv hok hpn hcap hloc
    obtain ⟨l, hl⟩ := Option.isSome_iff_exists.mp hloc
    have hmiss : refMissing db.locations (some location) = false := by
      simp [refMissing, hl]
    have hc : ((some capacity).any fun c => c < 1) = false := by
      simp only [Option.any_some, decide_eq_false_iff_not]
      omega
    have hne : placeName ≠ "" := by
      intro h
      rw [h] at hpn
      exact absurd hpn (by decide)
    have hpe : ((some placeName : Option String) == some "") = false := by
      simp [hne]
    simp [venueUpdateRoute, hauth, hgate v hfv hok, updateVenue, hmiss, hfv, hc, hpe]

/-- Witness for the amended C6: Alice (Admin) passes the gate on any id;
non-owner Carol is stopped with 403 on both routes for venue 10; owner
Bob's delete of venue 10 succeeds; owner Bob's update of venue 10 with
valid fields succeeds. -/
theorem venueOwnership_update_delete_spec_witness :
    checkVenueOwnership dbRw (some adminUser) (some 99) = .proceed ∧
    (∃ m, venueDeleteRoute dbRw (some 9) 10 = (.stopped 403 m, dbRw) ∧
      venueUpdateRoute dbRw (some 9) 10 ⟨none, none, none⟩ = (.stopped 403 m, dbRw)) ∧
    venueDeleteRoute dbRw (some 8) 10 =
      (.handled (.deleted ⟨10, "Hall", 100, 3, 8⟩),
        { dbRw with venues := dbRw.venues.eraseP (fun x => x.id == 10) }) ∧
    venueUpdateRoute dbRw (some 8) 10 ⟨some "Hall B", some 250, some 2⟩ =
      (.handled (.ok ⟨10, "Hall B", 250, 2, 8⟩),
        { dbRw with venues := updateVenueById dbRw.venues 10 (fun w =>
            { w with placeName := "Hall B", capacity := 250, location := 2 }) }) := by
  refine ⟨(venueOwnership_update_delete_spec dbRw 7 99 adminUser ⟨none, none, none⟩
    (by decide)).1 rfl, ?_, ?_, ?_⟩
  · exact (venueOwnership_update_delete_spec dbRw 9 10 attendUser ⟨none, none, none⟩
      (by decide)).2.2.1 ⟨10, "Hall", 100, 3, 8⟩ (by decide) (by decide) (by decide)
  · exact (venueOwnership_update_delete_spec dbRw 8 10 organizerUser ⟨none, none, none⟩
      (by decide)).2.2.2.1 ⟨10, "Hall", 100, 3, 8⟩ (by decide) (Or.inr rfl)
  · exact (venueOwnership_update_delete_spec dbRw 8 10 organizerUser ⟨none, none, none⟩
      (by decide)).2.2.2.2 ⟨10, "Hall", 100, 3, 8⟩ "Hall B" 250 2 (by decide)
      (Or.inr rfl) rfl (by decide) (by decide)

/-- C7: the identity-resolution middleware returns 401 when the x-user-id
header is absent and when no User record carries the given id; otherwise it
attaches the resolved user with its populated location and the request
proceeds; an unauthenticated result terminates the route with status 401
and an untouched store. -/
theorem authenticateUser_spec (db : DB) (uid : Nat) :
    (authenticateUser db none =
      .unauthenticated "Authentication required. Please provide x-user-id header") ∧
    ((∀ u ∈ db.users, u.id ≠ uid) →
      authenticateUser db (some uid) = .unauthenticated "Invalid user ID") ∧
    (∀ u, findUser db.users uid = some u →
      authenticateUser db (some uid) = .ok u (findLocation db.locations u.location)) ∧
    (∀ m, authenticateUser db (some uid) = .unauthenticated m →
      ∀ pid, venueDeleteRoute db (some uid) pid = (.stopped 401 m, db)) := by
  refine ⟨rfl, ?_, ?_, ?_⟩
  · intro h
    have hfind : findUser db.users uid = none := by
      apply List.find?_eq_none.mpr
      intro u hu
      simp [h u hu]
    simp [authenticateUser, hfind]
  · intro u hfind
    simp [authenticateUser, hfind]
  · intro m hm pid
    simp [venueDeleteRoute, hm]

/-- Witness for C7: no user has id 99 in the fixture; Alice resolves with
her populated location; the missing-user case stops the delete route with
401. -/
theorem authenticateUser_spec_witness :
    (authenticateUser dbRw none =
      .unauthenticated "Authentication required. Please provide x-user-id header") ∧
    authenticateUser dbRw (some 99) = .unauthenticated "Invalid user ID" ∧
    authenticateUser dbRw (some 7) =
      .ok adminUser (findLocation dbRw.locations adminUser.location) ∧
    venueDeleteRoute dbRw (some 99) 10 = (.stopped 401 "Invalid user ID", dbRw) := by
  refine ⟨(authenticateUser_spec dbRw 99).1, ?_, ?_, ?_⟩
  · exact (authenticateUser_spec dbRw 99).2.1 (by decide)
  · exact (authenticateUser_spec dbRw 7).2.2.1 adminUser (by decide)
  · exact (authenticateUser_spec dbRw 99).2.2.2 "Invalid user ID"
      ((authenticateUser_spec dbRw 99).2.1 (by decide)) 10

theorem eraseP_id_not_mem (locs : List Location) (l : Location)
    (hnd : idsNodup locs) (hmem : l ∈ locs) :
    ∀ x ∈ locs.eraseP (fun x => x.id == l.id), x.id ≠ l.id := by
  induction locs with
  | nil => intro x hx; cases hx
  | cons a rest ih =>
    have hnd' : (a.id :: rest.map (fun x => x.id)).Nodup := hnd
    rw [List.nodup_cons] at hnd'
    intro x hx
    rw [List.eraseP_cons] at hx
    by_cases h : (a.id == l.id) = true
    · rw [h, cond_true] at hx
      have ha : a.id = l.id := by simpa using h
      intro hxl
      exact hnd'.1 (ha ▸ hxl ▸ List.mem_map.mpr ⟨x, hx, rfl⟩)
    · rw [Bool.of_not_eq_true h, cond_false] at hx
      have hlrest : l ∈ rest := by
        rcases List.mem_cons.mp hmem with rfl | hr
        · exact absurd (by simp) h
        · exact hr
      rcases List.mem_cons.mp hx with rfl | hx
      · simpa using h
      · exact ih hnd'.2 hlrest x hx

/-- C8: deleting a location that has at least one direct child always fails
with the 400 conflict and the target stays in the unchanged store; deleting
a childless location present in a well-keyed store always succeeds with 200
and removes it (no record with its id remains). -/
theorem deleteLocation_blocked_or_removes (locs : List Location) (l : Location)
    (hnd : idsNodup locs) (hmem : l ∈ locs) :
    ((∃ c ∈ locs, c.parent = some l.id) →
      deleteLocation locs l.id = (.conflict "Cannot delete location with child locations", locs) ∧
      (deleteLocation locs l.id).1.status = 400 ∧
      l ∈ (deleteLocation locs l.id).2) ∧
    ((∀ c ∈ locs, c.parent ≠ some l.id) →
      deleteLocation locs l.id = (.deleted l, locs.eraseP (fun x => x.id == l.id)) ∧
      (deleteLocation locs l.id).1.status = 200 ∧
      ∀ x ∈ (deleteLocation locs l.id).2, x.id ≠ l.id) := by
  constructor
  · rintro ⟨c, hc, hcp⟩
    have hch : 0 < (childrenOf locs l.id).length := by
      apply List.length_pos_of_mem
      exact List.mem_filter.mpr ⟨hc, by simp [hcp]⟩
    refine ⟨by simp [deleteLocation, hch], by simp [deleteLocation, hch, DeleteLocationRes.status], ?_⟩
    simpa [deleteLocation, hch] using hmem
  · intro hno
    have hch : childrenOf locs l.id = [] := childrenOf_eq_nil locs l.id hno
    have hlen : ¬ 0 < (childrenOf locs l.id).length := by simp [hch]
    have hfind : findLocation locs l.id = some l := findLocation_eq_of_mem locs l hnd hmem
    refine ⟨by simp [deleteLocation, hlen, hfind],
      by simp [deleteLocation, hlen, hfind, DeleteLocationRes.status], ?_⟩
    intro x hx
    simp only [deleteLocation, if_neg hlen, hfind] at hx
    exact eraseP_id_not_mem locs l hnd hmem x hx

/-- Witness for C8: Rwanda (id 1) has the child Kigali, so its delete is
blocked with 400; the leaf Kicukiro (id 3) is deleted and no record with id
3 remains. -/
theorem deleteLocation_blocked_or_removes_witness :
    (deleteLocation storeRw 1 = (.conflict "Cannot delete location with child locations", storeRw) ∧
      (deleteLocation storeRw 1).1.status = 400 ∧
      (⟨1, "Rwanda", "RW", none⟩ : Location) ∈ (deleteLocation storeRw 1).2) ∧
    (deleteLocation storeRw 3 =
        (.deleted ⟨3, "Kicukiro", "KCK", some 2⟩, storeRw.eraseP (fun x => x.id == 3)) ∧
      (deleteLocation storeRw 3).1.status = 200 ∧
      ∀ x ∈ (deleteLocation storeRw 3).2, x.id ≠ 3) := by
  constructor
  · exact (deleteLocation_blocked_or_removes storeRw ⟨1, "Rwanda", "RW", none⟩
      (by decide) (by decide)).1 ⟨⟨2, "Kigali", "KGL", some 1⟩, by decide, by decide⟩
  · exact (deleteLocation_blocked_or_removes storeRw ⟨3, "Kicukiro", "KCK", some 2⟩
      (by decide) (by decide)).2 (by decide)

theorem updateVenueById_createdBy (venues : List Venue) (i : Nat) (f : Venue → Venue)
    (hf : ∀ v, (f v).createdBy = v.createdBy) :
    ∀ j : Nat, ((updateVenueById venues i f)[j]?).map Venue.createdBy =
      (venues[j]?).map Venue.createdBy := by
  induction venues generalizing i with
  | nil => intro j; rfl
  | cons v rest ih =>
    intro j
    by_cases h : (v.id == i) = true
    · simp only [updateVenueById, if_pos h]
      cases j with
      | zero => simp [hf]
      | succ n => simp
    · simp only [updateVenueById, if_neg h]
      cases j with
      | zero => simp
      | succ n => simpa using ih i n

/-- C9: a venue update never changes any venue's `createdBy` (position by
position, every stored venue keeps its creator), and venue creation either
leaves the venue collection unchanged (failure) or appends one venue whose
`createdBy` is the authenticated caller's id. -/
theorem createdBy_set_at_creation_never_updated (locs : List Location)
    (venues : List Venue) (paramsId newId : Nat) (caller : User) (body : VenueBody) :
    (∀ j : Nat, (((updateVenue locs venues paramsId body).2)[j]?).map Venue.createdBy =
      (venues[j]?).map Venue.createdBy) ∧
    ((createVenue locs venues caller body newId).2 = venues ∨
      ∃ v, (createVenue locs venues caller body newId).2 = venues ++ [v] ∧
        v.createdBy = caller.id) := by
  constructor
  · intro j
    unfold updateVenue
    by_cases h1 : refMissing locs body.location = true
    · simp [h1]
    · simp only [if_neg h1]
      cases hfv : findVenue venues paramsId with
      | none => rfl
      | some old =>
        by_cases h2 : (body.capacity.any fun c => c < 1) = true
        · simp [h2]
        · simp only [if_neg h2]
          by_cases h3 : (body.placeName == some "") = true
          · simp [h3]
          · simp only [if_neg h3]
            exact updateVenueById_createdBy venues paramsId
              (fun v => { v with
                placeName := body.placeName.getD v.placeName,
                capacity := body.capacity.getD v.capacity,
                location := body.location.getD v.location }) (fun v => rfl) j
  · unfold createVenue
    cases body.placeName with
    | none => exact Or.inl rfl
    | some placeName =>
      cases body.capacity with
      | none => exact Or.inl rfl
      | some capacity =>
        cases body.location with
        | none => exact Or.inl rfl
        | some location =>
          by_cases h1 : (placeName.isEmpty || capacity == 0) = true
          · simp [h1]
          · simp only [if_neg h1]
            by_cases h2 : (findLocation locs location).isNone = true
            · simp [h2]
            · simp only [if_neg h2]
              by_cases h3 : capacity < 1
              · simp [h3]
              · simp only [if_neg h3]
                exact Or.inr ⟨⟨newId, placeName, capacity, location, caller.id⟩, rfl, rfl⟩

/-- C10: for an id absent from the location store with no dangling children,
the users-by-location query does not fail: it answers 200 with
`locationsSearched` 1 and exactly the users whose location equals that id
(none, when user references are non-dangling) — while the venue counterpart
fails with 404 for the same id. -/
theorem usersByLocation_no_existence_check (locs : List Location)
    (users : List User) (venues : List Venue) (lid : Nat)
    (hnot : lid ∉ idsOf locs) (hnochild : ∀ l ∈ locs, l.parent ≠ some lid) :
    getUsersByLocation locs users lid =
      ⟨200, (users.filter (fun u => u.location == lid)).length, 1,
        users.filter (fun u => u.location == lid)⟩ ∧
    ((∀ u ∈ users, u.location ∈ idsOf locs) →
      users.filter (fun u => u.location == lid) = []) ∧
    getVenuesByLocation locs venues lid = .notFound "Location not found" := by
  have hres : resolveSubtree locs lid = [lid] :=
    resolveSubtree_of_no_children locs lid (childrenOf_eq_nil locs lid hnochild)
  refine ⟨?_, ?_, ?_⟩
  · have hdec : (fun u : User => decide (u.location = lid)) = (fun u => u.location == lid) := by
      funext u
      cases h : (u.location == lid) <;> simp_all
    simp [getUsersByLocation, hres, hdec]
  · intro hclean
    apply List.filter_eq_nil_iff.mpr
    intro u hu
    simp only [beq_iff_eq]
    intro hul
    exact hnot (hul ▸ hclean u hu)
  · simp [getVenuesByLocation, findLocation_eq_none locs lid hnot]

/-- Witness for C10 at the dangling id 99 against the Rwanda store. -/
theorem usersByLocation_no_existence_check_witness :
    getUsersByLocation storeRw dbRw.users 99 =
      ⟨200, (dbRw.users.filter (fun u => u.location == 99)).length, 1,
        dbRw.users.filter (fun u => u.location == 99)⟩ ∧
    ((∀ u ∈ dbRw.users, u.location ∈ idsOf storeRw) →
      dbRw.users.filter (fun u => u.location == 99) = []) ∧
    getVenuesByLocation storeRw venuesRw 99 = .notFound "Location not found" :=
  usersByLocation_no_existence_check storeRw dbRw.users venuesRw 99
    (by decide) (by decide)

end Nelson
